import Mathlib

/-!
Verification of the HERa data-ingestion pipeline
(`src/server/services/legalInfoCrawler.ts`, `src/server/services/clinicCrawler.ts`,
and the clinic seeder module).

The TypeScript source is shallowly embedded: each JavaScript collection
operation used by the crawlers (`[...new Set(list)]`, `new Map(pairs).values()`,
`Array.prototype.sort` with a numeric comparator) is modelled by an executable
Lean function with the semantics prescribed by ECMAScript, and each pipeline
function is translated field by field.  `new Date(s).getTime()` is treated as
an oracle `parse : String -> Option Int` (`none` models `NaN`, the result for
an unparseable date string); all theorems about date sorting quantify over
this oracle, and concrete counterexamples instantiate it with a fixture
that mirrors real `Date` behaviour on the strings involved.
-/

namespace HERa

/-- A recent legal update entry: `{date, description, impact}`
(interface `LegalUpdate` in legalInfoCrawler.ts). -/
structure LegalUpdate where
  date : String
  description : String
  impact : String
deriving DecidableEq, Repr

/-- A news article entry (interface `NewsArticle` in legalInfoCrawler.ts). -/
structure NewsArticle where
  title : String
  url : String
  source : String
  date : String
  summary : String
  state : String
deriving DecidableEq, Repr

/-- An emergency contact (interface `EmergencyContact`). -/
structure EmergencyContact where
  name : String
  phone : String
  available24x7 : Bool
deriving DecidableEq, Repr

/-- An official document entry `{title, url, type}`. -/
structure OfficialDoc where
  title : String
  url : String
  type : String
deriving DecidableEq, Repr

/-- A legal resource entry `{name, url, description}`. -/
structure LegalResource where
  name : String
  url : String
  description : String
deriving DecidableEq, Repr

/-- Health-department contact info; every sub-field optional
(`healthDeptInfo` in interface `StateLegalInfo`). -/
structure HealthDeptInfo where
  name : Option String := none
  website : Option String := none
  phone : Option String := none
  email : Option String := none
deriving DecidableEq, Repr

/-- The full per-state legal record (interface `StateLegalInfo` in
legalInfoCrawler.ts).  Optional fields of the interface are `Option`. -/
structure StateLegalInfo where
  state : String
  restrictions : List String
  requirements : List String
  recentUpdates : List LegalUpdate
  effectiveDate : Option String := none
  sourceUrls : List String
  additionalNotes : Option String := none
  emergencyContacts : List EmergencyContact
  officialDocuments : List OfficialDoc
  legalResources : List LegalResource
  stateWebsite : Option String := none
  healthDeptInfo : HealthDeptInfo
  newsArticles : List NewsArticle
deriving DecidableEq, Repr

/-!  JavaScript collection semantics.  -/

/-- Model of `[...new Set(l)]`: iterate left to right, keep an element only
when it has not been seen before (JS `Set.add` is a no-op on a present value,
and spreading a Set yields insertion order).  `seen` accumulates the values
already inserted. -/
def jsSetDedupAux [DecidableEq α] (seen : List α) : List α → List α
  | [] => []
  | x :: xs =>
    if x ∈ seen then jsSetDedupAux seen xs
    else x :: jsSetDedupAux (x :: seen) xs

/-- `[...new Set(l)]`: first-occurrence-preserving deduplication. -/
def jsSetDedup [DecidableEq α] (l : List α) : List α :=
  jsSetDedupAux [] l

/-- One step of building `new Map(l.map(x => [key(x), x]))`: `map.set` replaces
the value in place when the key is present (the key keeps its original
position) and appends a fresh pair otherwise. -/
def jsMapInsert [DecidableEq β] (key : α → β) (m : List (β × α)) (a : α) :
    List (β × α) :=
  if m.any (fun p => p.1 = key a) then
    m.map (fun p => if p.1 = key a then (p.1, a) else p)
  else m ++ [(key a, a)]

/-- Model of `Array.from(new Map(l.map(x => [key(x), x])).values())`:
deduplication by `key`, keeping each key at its first-occurrence position but
with the value of its last occurrence. -/
def jsMapDedup [DecidableEq β] (key : α → β) (l : List α) : List α :=
  (l.foldl (jsMapInsert key) []).map (fun p => p.2)

/-- The comparator `(a, b) => time(b) - time(a)` used by every date sort in
the crawler, under ECMAScript `SortCompare`: `getTime()` of an invalid date is
`NaN`, the subtraction is then `NaN`, and `SortCompare` coerces a `NaN`
comparator result to `+0`, so any pair involving an unparseable date compares
as a tie. -/
def keyCmp (key : α → Option Int) (a b : α) : Int :=
  match key b, key a with
  | some tb, some ta => tb - ta
  | _, _ => 0

/-- Insert `x` into `l`, placing it before the first element `y` with
`cmp x y < 0` (stable: `x` passes over every element it ties with). -/
def insertCmp (cmp : α → α → Int) (x : α) : List α → List α
  | [] => [x]
  | y :: ys => if cmp x y < 0 then x :: y :: ys else y :: insertCmp cmp x ys

/-- Reference determinization of `Array.prototype.sort(cmp)`: a stable
insertion sort.  For a comparator that is consistent on the sorted elements,
ECMAScript requires the sorted, stable order, which is unique and which this
function computes - so on such inputs it coincides with every conforming
engine.  For an inconsistent comparator (such as the date comparator of the
crawler once a `NaN` tie is involved) ECMAScript leaves the order
implementation-defined, and only the relational contract `SortSpec` below
is faithful; this function then merely picks one admissible order. -/
def jsStableSort (cmp : α → α → Int) (l : List α) : List α :=
  l.foldl (fun acc x => insertCmp cmp x acc) []

/-- The ECMAScript notion of a consistent comparison function, restricted to
the elements actually being sorted: comparison results are antisymmetric in
sign and the induced "not after" relation (`cmp a b <= 0`) is transitive. -/
def ConsistentCmpOn (cmp : α → α → Int) (l : List α) : Prop :=
  (∀ a ∈ l, ∀ b ∈ l,
    (cmp a b = 0 → cmp b a = 0) ∧ (cmp a b < 0 → 0 < cmp b a)) ∧
    ∀ a ∈ l, ∀ b ∈ l, ∀ c ∈ l,
      cmp a b ≤ 0 → cmp b c ≤ 0 → cmp a c ≤ 0

instance (cmp : α → α → Int) (l : List α) :
    Decidable (ConsistentCmpOn cmp l) := by
  unfold ConsistentCmpOn
  infer_instance

/-- The contract of `Array.prototype.sort(cmp)` (ECMAScript 23.1.3.30): the
result is always a permutation of the input (the elements are collected and
written back); when `cmp` is a consistent comparison function on those
elements the result is the unique stable sorted order, computed by
`jsStableSort`; when it is not, ECMAScript makes the resulting order
implementation-defined (the TimSort of V8, for instance, detects runs by
adjacent comparisons only and returns a list whose adjacent comparisons all
yield ties unchanged), so only the permutation guarantee remains. -/
def SortSpec (cmp : α → α → Int) (input output : List α) : Prop :=
  output.Perm input ∧
    (ConsistentCmpOn cmp input → output = jsStableSort cmp input)

/-!  Legal-information crawler (legalInfoCrawler.ts).  -/

/-- The contribution of one source scraper for one state: every field of
`Partial<StateLegalInfo>` is optional (`none` models a missing key, as
returned by `scrapePlannedParenthood`, `scrapeACLU`, `scrapeGuttmacher`,
`scrapeStateGovernmentSite`, `scrapeKaiserFamilyFoundation`, `scrapeNWLC`
and `scrapeStateResources`; a failed scrape returns `{}`, i.e. all fields
`none`). -/
structure ScrapedLegalData where
  restrictions : Option (List String) := none
  requirements : Option (List String) := none
  recentUpdates : Option (List LegalUpdate) := none
  sourceUrls : Option (List String) := none
  officialDocuments : Option (List OfficialDoc) := none
  legalResources : Option (List LegalResource) := none
  stateWebsite : Option String := none
  healthDeptInfo : Option HealthDeptInfo := none
deriving DecidableEq, Repr

/-- Model of the JS expression `field || []` applied to a possibly missing
list field. -/
def orL (o : Option (List α)) : List α := o.getD []

/-- The two hard-coded emergency contacts in the merge literal of
`startLegalInfoCrawler` (legalInfoCrawler.ts lines 613-624). -/
def nafHotline : EmergencyContact :=
  { name := "National Abortion Federation Hotline",
    phone := "1-800-772-9100", available24x7 := true }

/-- Second hard-coded emergency contact of the merge literal. -/
def ppDirectSupport : EmergencyContact :=
  { name := "Planned Parenthood Direct Support",
    phone := "1-800-230-PLAN", available24x7 := true }

/-- The merge literal of `startLegalInfoCrawler` (legalInfoCrawler.ts lines
586-637): the object built from the seven per-source results and passed to
`generateAIEnhancedLegalInfo`.  `restrictions`, `requirements` and
`sourceUrls` are wrapped in `[...new Set(...)]`; `recentUpdates` is a plain
concatenation date-sorted with the comparator
`(a, b) => new Date(b.date) - new Date(a.date)`; `officialDocuments` and
`legalResources` are plain concatenations; `newsArticles` is initialised
to `[]`.  `parse` is the date oracle for `new Date(s).getTime()`. -/
def mergeScrapedData (parse : String → Option Int) (state : String)
    (ppData acluData guttmacherData stateGovData kffData nwlcData
      stateResources : ScrapedLegalData) : StateLegalInfo where
  state := state
  restrictions := jsSetDedup
    (orL ppData.restrictions ++ orL acluData.restrictions ++
      orL guttmacherData.restrictions ++ orL kffData.restrictions ++
      orL nwlcData.restrictions)
  requirements := jsSetDedup
    (orL ppData.requirements ++ orL guttmacherData.requirements ++
      orL kffData.requirements ++ orL nwlcData.requirements)
  recentUpdates := jsStableSort (keyCmp (fun u => parse u.date))
    (orL ppData.recentUpdates ++ orL kffData.recentUpdates ++
      orL nwlcData.recentUpdates)
  sourceUrls := jsSetDedup
    (orL ppData.sourceUrls ++ orL acluData.sourceUrls ++
      orL guttmacherData.sourceUrls ++ orL kffData.sourceUrls ++
      orL nwlcData.sourceUrls)
  additionalNotes := none
  emergencyContacts := [nafHotline, ppDirectSupport]
  officialDocuments :=
    orL stateGovData.officialDocuments ++ orL kffData.officialDocuments
  legalResources :=
    orL stateResources.legalResources ++ orL stateGovData.legalResources ++
      orL kffData.legalResources
  stateWebsite := stateGovData.stateWebsite
  healthDeptInfo := stateGovData.healthDeptInfo.getD {}
  newsArticles := []
  effectiveDate := none

/-- The successful tail of `scrapeNewsArticles` (legalInfoCrawler.ts lines
142-150): the pushed articles are deduplicated by URL through
`new Map(articles.map(a => [a.url, a]))` and then sorted most-recent-first
with the usual date comparator. -/
def scrapeNewsResult (parse : String → Option Int)
    (pushed : List NewsArticle) : List NewsArticle :=
  jsStableSort (keyCmp (fun a => parse a.date))
    (jsMapDedup (fun a => a.url) pushed)

/-- The JSON object returned by the completion service in
`generateAIEnhancedLegalInfo`; every field of the parsed object may be
missing (each use site guards with `|| []` or `||`). -/
structure AiGenerated where
  restrictions : Option (List String) := none
  requirements : Option (List String) := none
  recentUpdates : Option (List LegalUpdate) := none
  newsArticles : Option (List NewsArticle) := none
  additionalNotes : Option String := none
  emergencyContacts : Option (List EmergencyContact) := none
  officialDocuments : Option (List OfficialDoc) := none
deriving DecidableEq, Repr

/-- Model of the JS expression `a || b` on string fields: a missing value or
the empty string (both falsy) fall through to `b`. -/
def jsOrStr (a b : Option String) : Option String :=
  match a with
  | some s => if s = "" then b else some s
  | none => b

/-- `generateAIEnhancedLegalInfo` (legalInfoCrawler.ts lines 158-260).
`newsArticles` is the result of the inner `scrapeNewsArticles(state)` call;
`ai` is the parsed completion response, `none` when the completion call or
`JSON.parse` throws, in which case the catch block returns `scrapedData`
unchanged.  On success every AI list is spread BEFORE the corresponding
`scrapedData` list, `newsArticles` is rebuilt from the freshly scraped
articles followed by the AI articles (the `scrapedData.newsArticles` field
is not referenced), and `additionalNotes` is
`aiGeneratedInfo.additionalNotes || scrapedData.additionalNotes`. -/
def generateAIEnhancedLegalInfo (parse : String → Option Int)
    (newsArticles : List NewsArticle) (ai : Option AiGenerated)
    (scrapedData : StateLegalInfo) : StateLegalInfo :=
  match ai with
  | none => scrapedData
  | some aiGeneratedInfo =>
    { scrapedData with
      restrictions :=
        orL aiGeneratedInfo.restrictions ++ scrapedData.restrictions
      requirements :=
        orL aiGeneratedInfo.requirements ++ scrapedData.requirements
      recentUpdates := jsStableSort (keyCmp (fun u => parse u.date))
        (orL aiGeneratedInfo.recentUpdates ++ scrapedData.recentUpdates)
      newsArticles := jsStableSort (keyCmp (fun a => parse a.date))
        (newsArticles ++ orL aiGeneratedInfo.newsArticles)
      additionalNotes :=
        jsOrStr aiGeneratedInfo.additionalNotes scrapedData.additionalNotes
      emergencyContacts :=
        orL aiGeneratedInfo.emergencyContacts ++ scrapedData.emergencyContacts
      officialDocuments :=
        orL aiGeneratedInfo.officialDocuments ++ scrapedData.officialDocuments
      healthDeptInfo := scrapedData.healthDeptInfo }

/-- The `mergedData` value computed for one state by the task body of
`startLegalInfoCrawler` (line 586): the merge literal fed through
`generateAIEnhancedLegalInfo`, whose fields are then written to the store.
`pushedNews` is the raw article list accumulated by `scrapeNewsArticles`. -/
def legalCrawlerRecord (parse : String → Option Int) (state : String)
    (ppData acluData guttmacherData stateGovData kffData nwlcData
      stateResources : ScrapedLegalData)
    (pushedNews : List NewsArticle) (ai : Option AiGenerated) :
    StateLegalInfo :=
  generateAIEnhancedLegalInfo parse (scrapeNewsResult parse pushedNews) ai
    (mergeScrapedData parse state ppData acluData guttmacherData stateGovData
      kffData nwlcData stateResources)

/-- The possible results of the `recentUpdates` sort call in the merge
literal of `startLegalInfoCrawler` (legalInfoCrawler.ts lines 601-605):
`[...pp, ...kff, ...nwlc].sort((a, b) => new Date(b.date) - new Date(a.date))`
under the `Array.prototype.sort` contract `SortSpec` (the enriched
`recentUpdates` sort at lines 235-238 has the same shape). -/
def mergedRecentUpdatesSpec (parse : String → Option Int)
    (ppData kffData nwlcData : ScrapedLegalData)
    (output : List LegalUpdate) : Prop :=
  SortSpec (keyCmp (fun u => parse u.date))
    (orL ppData.recentUpdates ++ orL kffData.recentUpdates ++
      orL nwlcData.recentUpdates) output

/-- The possible results of the `newsArticles` sort call in
`generateAIEnhancedLegalInfo` (legalInfoCrawler.ts lines 239-242):
`[...newsArticles, ...(ai.newsArticles || [])].sort(...)` under the
`Array.prototype.sort` contract `SortSpec`. -/
def mergedNewsArticlesSpec (parse : String → Option Int)
    (scrapedNews aiNews : List NewsArticle)
    (output : List NewsArticle) : Prop :=
  SortSpec (keyCmp (fun a => parse a.date)) (scrapedNews ++ aiNews) output

/-- A persisted `legalInfo` row: the record fields plus the two timestamps
the crawler writes (`effectiveDate` only on insert, `lastVerified` on both
paths).  Timestamps are abstract `Nat` instants. -/
structure LegalRow where
  state : String
  restrictions : List String
  requirements : List String
  recentUpdates : List LegalUpdate
  sourceUrls : List String
  additionalNotes : Option String
  emergencyContacts : List EmergencyContact
  officialDocuments : List OfficialDoc
  legalResources : List LegalResource
  stateWebsite : Option String
  healthDeptInfo : HealthDeptInfo
  newsArticles : List NewsArticle
  effectiveDate : Nat
  lastVerified : Nat
deriving DecidableEq, Repr

/-- The `.set({...})` payload of the update branch of the legal upsert
(legalInfoCrawler.ts lines 646-662): all mutable fields overwritten from
`mergedData` and `lastVerified` refreshed; `state` and `effectiveDate` are
untouched. -/
def applyLegalUpdate (mergedData : StateLegalInfo) (now : Nat)
    (row : LegalRow) : LegalRow :=
  { row with
    restrictions := mergedData.restrictions
    requirements := mergedData.requirements
    recentUpdates := mergedData.recentUpdates
    sourceUrls := mergedData.sourceUrls
    additionalNotes := mergedData.additionalNotes
    emergencyContacts := mergedData.emergencyContacts
    officialDocuments := mergedData.officialDocuments
    legalResources := mergedData.legalResources
    stateWebsite := mergedData.stateWebsite
    healthDeptInfo := mergedData.healthDeptInfo
    newsArticles := mergedData.newsArticles
    lastVerified := now }

/-- The `.values({...})` payload of the insert branch of the legal upsert
(legalInfoCrawler.ts lines 665-680). -/
def insertLegalRow (mergedData : StateLegalInfo) (now : Nat) : LegalRow where
  state := mergedData.state
  restrictions := mergedData.restrictions
  requirements := mergedData.requirements
  recentUpdates := mergedData.recentUpdates
  sourceUrls := mergedData.sourceUrls
  additionalNotes := mergedData.additionalNotes
  emergencyContacts := mergedData.emergencyContacts
  officialDocuments := mergedData.officialDocuments
  legalResources := mergedData.legalResources
  stateWebsite := mergedData.stateWebsite
  healthDeptInfo := mergedData.healthDeptInfo
  newsArticles := mergedData.newsArticles
  effectiveDate := now
  lastVerified := now

/-- The upsert step of `startLegalInfoCrawler` (lines 640-681): `findFirst`
by state name, then SQL `update ... where state = ...` (which touches every
row with that state) or `insert`. -/
def upsertLegalInfo (store : List LegalRow) (mergedData : StateLegalInfo)
    (now : Nat) : List LegalRow :=
  if store.any (fun r => r.state = mergedData.state) then
    store.map (fun r =>
      if r.state = mergedData.state then applyLegalUpdate mergedData now r
      else r)
  else store ++ [insertLegalRow mergedData now]

/-!  Clinic crawler (clinicCrawler.ts).  -/

/-- Interface `ClinicData` of clinicCrawler.ts.  `latitude`/`longitude` are
optional JS numbers; coordinates are modelled as integers (no claim depends
on their numeric value). -/
structure ClinicData where
  name : String
  address : String
  state : String
  phone : String
  services : List String
  acceptedInsurance : List String
  latitude : Option Int := none
  longitude : Option Int := none
deriving DecidableEq, Repr

/-- The data extracted synchronously from one matched DOM element by the
`.each` callback of `scrapeClinicWebsite` (clinicCrawler.ts lines 310-317). -/
structure ScrapedElem where
  name : String
  address : String
  phone : String
  services : List String
  insurance : List String
deriving DecidableEq, Repr

/-- Execution state of `scrapeClinicWebsite` while the synchronous cheerio
`.each` iterates: `pushed` is the `clinics` array, `pending` the callback
continuations suspended at `await geocodeAddress(address)`.  `.each` calls
the async callback synchronously and discards the returned promise, so the
callback body runs only up to its first `await`: the truthiness check
`if (name && address)` happens synchronously, but `clinics.push(...)` sits
after the awaited geocoding call and therefore only ever runs on a later
event-loop turn. -/
structure EachState where
  pushed : List ClinicData
  pending : List ScrapedElem
deriving DecidableEq, Repr

/-- The synchronous prefix of the `.each` callback for one element: drop the
element when `name` or `address` is empty (falsy), otherwise suspend at the
geocoding await.  No push happens here. -/
def eachCallbackSync (s : EachState) (e : ScrapedElem) : EachState :=
  if e.name ≠ "" ∧ e.address ≠ "" then
    { s with pending := s.pending ++ [e] }
  else s

/-- State after the `.each` loop of `scrapeClinicWebsite` has run over all
matched elements. -/
def scrapeClinicWebsiteRun (elems : List ScrapedElem) : EachState :=
  elems.foldl eachCallbackSync { pushed := [], pending := [] }

/-- The value of the `clinics` array at the moment `scrapeClinicWebsite`
returns (i.e. what its promise resolves to). -/
def scrapeClinicWebsiteResolved (elems : List ScrapedElem) :
    List ClinicData :=
  (scrapeClinicWebsiteRun elems).pushed

/-- The filter of `fetchClinicsFromAPI` (clinicCrawler.ts lines 365-369):
non-empty name and address and a case-insensitive state match. -/
def validClinicFilter (state : String) (c : ClinicData) : Bool :=
  c.name ≠ "" && c.address ≠ "" && c.state.toLower == state.toLower

/-- `fetchClinicsFromAPI` (clinicCrawler.ts lines 344-380): Planned
Parenthood API clinics, then the resolved values of the four
`scrapeClinicWebsite` calls, filtered and deduplicated by
`new Map(map(c => [c.name + c.address, c]))`. -/
def fetchClinicsFromAPI (state : String) (ppClinics : List ClinicData)
    (scrapedSites : List (List ScrapedElem)) : List ClinicData :=
  let clinics :=
    ppClinics ++ (scrapedSites.map scrapeClinicWebsiteResolved).flatten
  jsMapDedup (fun c => c.name ++ c.address)
    (clinics.filter (validClinicFilter state))

/-- The static `fallbackClinics` table of clinicCrawler.ts (lines 61-192),
keyed by state name. -/
def fallbackClinics : List (String × List ClinicData) :=
  [("California",
    [{ name := "Planned Parenthood - San Francisco Health Center",
       address := "1522 Bush Street, San Francisco, CA 94109",
       state := "California", phone := "(415) 922-6789",
       services := ["Abortion Services", "Birth Control", "HIV Testing",
         "STI Testing", "Emergency Contraception"],
       acceptedInsurance := ["Medi-Cal", "Family PACT",
         "Most Private Insurance"] },
     { name := "Planned Parenthood - Oakland Health Center",
       address := "1682 7th Street, Oakland, CA 94607",
       state := "California", phone := "(510) 300-3800",
       services := ["Abortion Services", "Birth Control", "HIV Testing",
         "STI Testing", "Emergency Contraception"],
       acceptedInsurance := ["Medi-Cal", "Family PACT",
         "Most Private Insurance"] },
     { name := "Planned Parenthood - Sacramento Health Center",
       address := "201 29th Street, Sacramento, CA 95816",
       state := "California", phone := "(916) 446-6921",
       services := ["Abortion Services", "Birth Control", "STD Testing",
         "Pregnancy Testing", "Emergency Contraception"],
       acceptedInsurance := ["Medi-Cal", "Family PACT",
         "Most Private Insurance"] }]),
   ("New York",
    [{ name := "Planned Parenthood - Manhattan Health Center",
       address := "26 Bleecker Street, New York, NY 10012",
       state := "New York", phone := "(212) 965-7000",
       services := ["Abortion Services", "Birth Control", "HIV Testing",
         "STI Testing", "Emergency Contraception"],
       acceptedInsurance := ["Medicaid", "Most Private Insurance"] },
     { name := "Planned Parenthood - Brooklyn Health Center",
       address := "44 Court Street, Brooklyn, NY 11201",
       state := "New York", phone := "(718) 923-4000",
       services := ["Abortion Services", "Birth Control", "HIV Testing",
         "STI Testing", "Emergency Contraception"],
       acceptedInsurance := ["Medicaid", "Most Private Insurance"] },
     { name := "Planned Parenthood - Bronx Center",
       address := "349 East 149th Street, Bronx, NY 10451",
       state := "New York", phone := "(718) 585-1220",
       services := ["Abortion Services", "Birth Control", "STD Testing",
         "Pregnancy Testing", "Emergency Contraception"],
       acceptedInsurance := ["Medicaid", "Most Private Insurance"] }]),
   ("Texas",
    [{ name := "Planned Parenthood - North Austin Health Center",
       address := "8916 Research Blvd., Austin, TX 78758",
       state := "Texas", phone := "(512) 331-1288",
       services := ["Birth Control", "STD Testing", "Pregnancy Testing",
         "Emergency Contraception", "Cancer Screenings"],
       acceptedInsurance := ["Private Insurance", "Medicaid"] },
     { name := "Planned Parenthood - Southwest Houston",
       address := "5800 Bellaire Blvd., Houston, TX 77081",
       state := "Texas", phone := "(713) 522-3976",
       services := ["Birth Control", "STD Testing", "Pregnancy Testing",
         "Emergency Contraception", "Cancer Screenings"],
       acceptedInsurance := ["Private Insurance", "Medicaid"] },
     { name := "Planned Parenthood - Dallas South Health Center",
       address := "7989 West Virginia Drive, Dallas, TX 75237",
       state := "Texas", phone := "(214) 941-1233",
       services := ["Birth Control", "STD Testing", "Pregnancy Testing",
         "Emergency Contraception", "Cancer Screenings"],
       acceptedInsurance := ["Private Insurance", "Medicaid"] }]),
   ("Florida",
    [{ name := "Planned Parenthood - Orlando Health Center",
       address := "726 S Tampa Ave, Orlando, FL 32805",
       state := "Florida", phone := "(407) 246-1788",
       services := ["Birth Control", "STD Testing", "Pregnancy Testing",
         "Emergency Contraception", "Cancer Screenings"],
       acceptedInsurance := ["Private Insurance", "Medicaid",
         "Florida Medicaid"] },
     { name := "Planned Parenthood - Miami Health Center",
       address := "3119 N Miami Ave, Miami, FL 33127",
       state := "Florida", phone := "(305) 441-2022",
       services := ["Birth Control", "STD Testing", "Pregnancy Testing",
         "Emergency Contraception", "Cancer Screenings"],
       acceptedInsurance := ["Private Insurance", "Medicaid",
         "Florida Medicaid"] },
     { name := "Planned Parenthood - Tampa Health Center",
       address := "8068 N 56th St, Tampa, FL 33617",
       state := "Florida", phone := "(813) 980-3555",
       services := ["Birth Control", "STD Testing", "Pregnancy Testing",
         "Emergency Contraception", "Cancer Screenings"],
       acceptedInsurance := ["Private Insurance", "Medicaid",
         "Florida Medicaid"] }]),
   ("Illinois",
    [{ name := "Planned Parenthood - Near North Health Center",
       address := "1200 N LaSalle Dr, Chicago, IL 60610",
       state := "Illinois", phone := "(312) 266-1033",
       services := ["Abortion Services", "Birth Control", "STD Testing",
         "Pregnancy Testing", "Emergency Contraception"],
       acceptedInsurance := ["Private Insurance", "Medicaid",
         "Illinois Medicaid"] },
     { name := "Planned Parenthood - Aurora Health Center",
       address := "3051 E New York St, Aurora, IL 60504",
       state := "Illinois", phone := "(630) 585-0500",
       services := ["Abortion Services", "Birth Control", "STD Testing",
         "Pregnancy Testing", "Emergency Contraception"],
       acceptedInsurance := ["Private Insurance", "Medicaid",
         "Illinois Medicaid"] },
     { name := "Planned Parenthood - Springfield Health Center",
       address := "601 Bruns Lane, Springfield, IL 62702",
       state := "Illinois", phone := "(217) 544-2744",
       services := ["Abortion Services", "Birth Control", "STD Testing",
         "Pregnancy Testing", "Emergency Contraception"],
       acceptedInsurance := ["Private Insurance", "Medicaid",
         "Illinois Medicaid"] }])]

/-- `fallbackClinics[state]`: lookup by state name. -/
def fallbackClinicsFor (state : String) : Option (List ClinicData) :=
  (fallbackClinics.find? (fun p => p.1 = state)).map (fun p => p.2)

/-- The fallback substitution of `startClinicCrawler` (lines 407-410): when
`fetchClinicsFromAPI` produced nothing and a fallback entry exists (any
array is truthy) the fallback list is used. -/
def clinicTaskData (state : String) (fetched : List ClinicData) :
    List ClinicData :=
  match fallbackClinicsFor state with
  | some fb => if fetched.length = 0 then fb else fetched
  | none => fetched

/-- The per-clinic store step of `startClinicCrawler` (lines 420-435):
`findMany` by exact clinic name; on a match no write happens and the
"Clinic already exists" branch logs (second component `true`); otherwise
the clinic is inserted. -/
def insertClinicIfNew (store : List ClinicData) (c : ClinicData) :
    List ClinicData × Bool :=
  if store.any (fun e => e.name = c.name) then (store, true)
  else (store ++ [c], false)

/-- Folding the per-clinic store step over a clinic list. -/
def storeClinicList (store : List ClinicData) (cs : List ClinicData) :
    List ClinicData :=
  cs.foldl (fun st c => (insertClinicIfNew st c).1) store

/-- The store contents after the task of `startClinicCrawler` for one state
runs against `store`, with `fetched` the result of `fetchClinicsFromAPI`. -/
def runClinicTask (state : String) (fetched : List ClinicData)
    (store : List ClinicData) : List ClinicData :=
  storeClinicList store (clinicTaskData state fetched)

/-!  Clinic seeder (`generateClinicData` / `generateStateClinicData` /
`retryOperation`).  -/

/-- One raw record of the JSON array returned by the completion service in
`generateStateClinicData`.  A field is `none` when it is missing, not of the
expected JS type, or NaN — exactly the disjuncts of the validation at the
top of the insert loop of `generateClinicData`.  Latitude and longitude are
modelled as integers. -/
structure RawClinic where
  name : Option String := none
  address : Option String := none
  phone : Option String := none
  latitude : Option Int := none
  longitude : Option Int := none
deriving DecidableEq, Repr

/-- `standardServices` of `generateClinicData`. -/
def standardServices : List String :=
  ["Medical Abortion", "Surgical Abortion", "Family Planning",
   "Counseling Services", "Birth Control"]

/-- `standardInsurance` of `generateClinicData`. -/
def standardInsurance : List String :=
  ["Medicaid", "Blue Cross Blue Shield", "UnitedHealthcare", "Aetna",
   "Cigna"]

/-- The phone-format test `/^\(\d{3}\) \d{3}-\d{4}$/`. -/
def isPhoneFormat (s : String) : Bool :=
  match s.toList with
  | '(' :: a :: b :: c :: ')' :: ' ' :: d :: e :: f :: '-' ::
      g :: h :: i :: j :: [] =>
    a.isDigit && b.isDigit && c.isDigit && d.isDigit && e.isDigit &&
      f.isDigit && g.isDigit && h.isDigit && i.isDigit && j.isDigit
  | _ => false

/-- The phone normalisation
`phone.replace(/[^\d]/g, "").replace(/(\d{3})(\d{3})(\d{4})/, "($1) $2-$3")`:
strip non-digits; when at least ten digits remain the first ten are
formatted and any surplus digits stay appended, otherwise the digit string
is left as is (no match). -/
def normalizePhone (s : String) : String :=
  let ds := s.toList.filter (fun c => c.isDigit)
  if 10 ≤ ds.length then
    "(" ++ String.mk (ds.take 3) ++ ") " ++
      String.mk ((ds.drop 3).take 3) ++ "-" ++
      String.mk ((ds.drop 6).take 4) ++ String.mk (ds.drop 10)
  else String.mk ds

/-- Validation and normalisation of one raw clinic record inside the insert
loop of `generateClinicData` (lines 921-948): reject when a required field
is missing/mistyped or a string field is empty (falsy); otherwise normalise
the phone when it does not already match the format, and build the inserted
row with the standard service and insurance lists. -/
def validateClinicRecord (state : String) (c : RawClinic) :
    Option ClinicData :=
  match c.name, c.address, c.phone, c.latitude, c.longitude with
  | some n, some a, some p, some lat, some lng =>
    if n = "" || a = "" || p = "" then none
    else some
      { name := n, address := a, state := state,
        phone := if isPhoneFormat p then p else normalizePhone p,
        services := standardServices,
        acceptedInsurance := standardInsurance,
        latitude := some lat, longitude := some lng }
  | _, _, _, _, _ => none

/-- The insert loop of `generateClinicData` over one batch: every valid
record is inserted into the store immediately and counted; invalid records
are skipped with `continue`.  Returns the new store and `successCount`. -/
def processClinicBatch (state : String) (store : List ClinicData)
    (stateData : List RawClinic) : List ClinicData × Nat :=
  stateData.foldl
    (fun acc c =>
      match validateClinicRecord state c with
      | some row => (acc.1 ++ [row], acc.2 + 1)
      | none => acc)
    (store, 0)

/-- One attempt of the operation `generateClinicData` hands to
`retryOperation`: `parsed` is the JSON array extracted from the completion
response (`none` when no array was found or `JSON.parse` threw —
`generateStateClinicData` then throws before any insert), a batch whose
length is not exactly 10 also throws before any insert, and otherwise the
insert loop runs and the attempt succeeds exactly when
`successCount >= 10`. -/
def clinicBatchAttempt (state : String) (store : List ClinicData)
    (parsed : Option (List RawClinic)) : List ClinicData × Bool :=
  match parsed with
  | none => (store, false)
  | some stateData =>
    if stateData.length = 10 then
      ((processClinicBatch state store stateData).1,
        decide (10 ≤ (processClinicBatch state store stateData).2))
    else (store, false)

/-- Result of `retryOperation`: success, the error thrown by the final
attempt, or the fresh `Error("All retry attempts failed")` reached only
when `maxAttempts < 1` (the loop body never runs). -/
inductive RetryResult (ε α : Type) where
  | ok (a : α)
  | opError (e : ε)
  | noAttempts
deriving DecidableEq, Repr

/-- The attempt loop of `retryOperation` (clinic seeder, lines 813-824).
`op k` is the outcome of the `k`-th invocation (0-based) of the wrapped
operation; `r` is the number of attempts remaining.  On a failure of the
final attempt the caught error is rethrown unchanged.  The second component
counts how many times `op` was invoked. -/
def retryLoop (op : Nat → Except ε α) : Nat → Nat → RetryResult ε α × Nat
  | _, 0 => (.noAttempts, 0)
  | k, r + 1 =>
    match op k with
    | .ok a => (.ok a, 1)
    | .error e =>
      if r = 0 then (.opError e, 1)
      else
        ((retryLoop op (k + 1) r).1, (retryLoop op (k + 1) r).2 + 1)

/-- `retryOperation(operation, maxAttempts)`: run the attempt loop from the
first invocation. -/
def retryOperation (op : Nat → Except ε α) (maxAttempts : Nat) :
    RetryResult ε α × Nat :=
  retryLoop op 0 maxAttempts

/-!  Fixtures used by the concrete counterexamples and witnesses.  These are
inputs, not source translations: `parseFix` mirrors `new Date(s).getTime()`
(milliseconds since the epoch) on the three fixture date strings, with
`none` for the NaN result on a string that is not a date.  -/

/-- Date oracle fixture. -/
def parseFix (s : String) : Option Int :=
  if s = "2020-01-01" then some 1577836800000
  else if s = "2024-01-01" then some 1704067200000
  else none

/-- A legal update dated 2020. -/
def upd2020 : LegalUpdate :=
  { date := "2020-01-01", description := "Waiting period enacted",
    impact := "Reduced access" }

/-- A legal update whose date string does not parse. -/
def updBadDate : LegalUpdate :=
  { date := "pending litigation", description := "Outcome unknown",
    impact := "Unclear" }

/-- A legal update dated 2024. -/
def upd2024 : LegalUpdate :=
  { date := "2024-01-01", description := "Protection expanded",
    impact := "Expanded access" }

/-- A source contribution carrying only `recentUpdates`. -/
def updatesOnly (us : List LegalUpdate) : ScrapedLegalData :=
  { recentUpdates := some us }

/-- The `fallbackLegalInfo["California"]` record of legalInfoCrawler.ts
(lines 695-764). -/
def fallbackLegalInfoCalifornia : StateLegalInfo where
  state := "California"
  restrictions :=
    ["No restrictions on abortion before viability",
     "Post-viability abortions allowed for life/health of the mother"]
  requirements :=
    ["Parental notification not required for minors",
     "No mandatory waiting period"]
  recentUpdates :=
    [{ date := "2024-01-01",
       description := "California strengthened abortion access protections",
       impact := "Increased accessibility and funding for abortion services" }]
  sourceUrls := ["https://www.plannedparenthood.org/learn/abortion/abortion-laws"]
  additionalNotes := some
    "California has some of the strongest abortion protections in the United States. The state constitution explicitly protects the right to privacy, which courts have interpreted to include abortion rights."
  emergencyContacts :=
    [{ name := "ACCESS Reproductive Justice", phone := "1-800-376-4636",
       available24x7 := true }]
  officialDocuments :=
    [{ title := "California Health and Safety Code Section 123460-123468",
       url := "https://leginfo.legislature.ca.gov/faces/codes_displaySection.xhtml?lawCode=HSC&sectionNum=123460",
       type := "legislation" },
     { title := "California Reproductive Privacy Act",
       url := "https://leginfo.legislature.ca.gov/faces/codes_displayText.xhtml?lawCode=HSC&division=106.&title=&part=2.&chapter=2.&article=2.5",
       type := "legislation" },
     { title := "Abortion Access and Safe Haven Laws",
       url := "https://www.cdph.ca.gov/Programs/CFH/DMCAH/Pages/Abortion-Access.aspx",
       type := "guidance" }]
  legalResources :=
    [{ name := "California Future of Abortion Council",
       url := "https://www.ca-fac.org/",
       description := "Coalition working to protect and expand abortion access in California" },
     { name := "National Abortion Federation - California Provider List",
       url := "https://prochoice.org/patients/find-a-provider/",
       description := "Directory of verified abortion providers in California" },
     { name := "ACCESS WHRC Legal Helpline",
       url := "https://www.reprolegalhelpline.org",
       description := "Free legal advice about abortion rights and access in California" }]
  stateWebsite := none
  healthDeptInfo :=
    { name := some "California Department of Public Health",
      website := some "https://www.cdph.ca.gov",
      phone := some "1-916-558-1784",
      email := some "reproductive.health@cdph.ca.gov" }
  newsArticles := []
  effectiveDate := none

/-- A raw seeder record with all fields present and valid, distinguished by
an index. -/
def mkValidRaw (i : Nat) : RawClinic :=
  { name := some ("Clinic " ++ toString i),
    address := some (toString i ++ " Main Street, Cheyenne, Wyoming 82001"),
    phone := some "(307) 555-0100",
    latitude := some 41, longitude := some (-104) }

/-- A raw seeder record missing its phone number. -/
def rawMissingPhone : RawClinic :=
  { name := some "Clinic 9",
    address := some "9 Main Street, Cheyenne, Wyoming 82001",
    phone := none, latitude := some 41, longitude := some (-104) }

/-- The end-to-end scenario batch: nine well-formed records plus one record
missing its phone number. -/
def wyomingBatch : List RawClinic :=
  (List.range 9).map mkValidRaw ++ [rawMissingPhone]

/-- A fixture news article. -/
def sampleArticle : NewsArticle :=
  { title := "Court ruling on access", url := "https://example.org/ruling",
    source := "Reuters", date := "2024-01-01",
    summary := "Summary of the ruling", state := "California" }

/-- A fixture merged record whose `newsArticles` and `additionalNotes` are
non-empty. -/
def inputWithArticle : StateLegalInfo where
  state := "California"
  restrictions := ["SRC"]
  requirements := ["REQ"]
  recentUpdates := []
  sourceUrls := ["https://example.org/source"]
  additionalNotes := some "from source"
  emergencyContacts := []
  officialDocuments := []
  legalResources := []
  stateWebsite := none
  healthDeptInfo := {}
  newsArticles := [sampleArticle]
  effectiveDate := none

/-- A fixture completion response carrying one restriction and a note. -/
def aiFixture : AiGenerated :=
  { restrictions := some ["AI"], additionalNotes := some "from AI" }

/-- A fixture operation that fails on its first two invocations (with the
invocation index as error) and then succeeds with 42. -/
def opFix : Nat → Except Nat Nat :=
  fun k => if k < 2 then .error k else .ok 42

/-!  Lemmas about the JS collection models.  -/

theorem mem_jsSetDedupAux [DecidableEq α] (seen : List α) (l : List α)
    (a : α) : a ∈ jsSetDedupAux seen l ↔ a ∈ l ∧ a ∉ seen := by
  induction l generalizing seen with
  | nil => simp [jsSetDedupAux]
  | cons x xs ih =>
    by_cases hx : x ∈ seen
    · simp only [jsSetDedupAux, if_pos hx, ih, List.mem_cons]
      constructor
      · rintro ⟨h1, h2⟩; exact ⟨Or.inr h1, h2⟩
      · rintro ⟨h1 | h1, h2⟩
        · exact absurd (h1 ▸ hx) h2
        · exact ⟨h1, h2⟩
    · simp only [jsSetDedupAux, if_neg hx, List.mem_cons, ih]
      constructor
      · rintro (rfl | ⟨h1, h2⟩)
        · exact ⟨Or.inl rfl, hx⟩
        · exact ⟨Or.inr h1, fun hs => h2 (Or.inr hs)⟩
      · rintro ⟨rfl | h1, h2⟩
        · exact Or.inl rfl
        · by_cases hax : a = x
          · exact Or.inl hax
          · exact Or.inr ⟨h1, fun hs => hs.elim hax h2⟩

theorem mem_jsSetDedup [DecidableEq α] (l : List α) (a : α) :
    a ∈ jsSetDedup l ↔ a ∈ l := by
  simp [jsSetDedup, mem_jsSetDedupAux]

theorem nodup_jsSetDedupAux [DecidableEq α] (seen : List α) (l : List α) :
    (jsSetDedupAux seen l).Nodup := by
  induction l generalizing seen with
  | nil => simp [jsSetDedupAux]
  | cons x xs ih =>
    by_cases hx : x ∈ seen
    · simpa [jsSetDedupAux, if_pos hx] using ih seen
    · simp only [jsSetDedupAux, if_neg hx, List.nodup_cons]
      refine ⟨fun hmem => ?_, ih (x :: seen)⟩
      exact ((mem_jsSetDedupAux _ _ _).1 hmem).2 (List.mem_cons_self x seen)

theorem nodup_jsSetDedup [DecidableEq α] (l : List α) :
    (jsSetDedup l).Nodup :=
  nodup_jsSetDedupAux [] l

theorem sublist_jsSetDedupAux [DecidableEq α] (seen : List α) (l : List α) :
    (jsSetDedupAux seen l).Sublist l := by
  induction l generalizing seen with
  | nil => simp [jsSetDedupAux]
  | cons x xs ih =>
    by_cases hx : x ∈ seen
    · simpa [jsSetDedupAux, if_pos hx] using (ih seen).cons x
    · simpa [jsSetDedupAux, if_neg hx] using (ih (x :: seen)).cons₂ x

theorem sublist_jsSetDedup [DecidableEq α] (l : List α) :
    (jsSetDedup l).Sublist l :=
  sublist_jsSetDedupAux [] l

theorem perm_insertCmp (cmp : α → α → Int) (x : α) (l : List α) :
    (insertCmp cmp x l).Perm (x :: l) := by
  induction l with
  | nil => simp [insertCmp]
  | cons y ys ih =>
    by_cases h : cmp x y < 0
    · simp [insertCmp, if_pos h]
    · simp only [insertCmp, if_neg h]
      exact (ih.cons y).trans (List.Perm.swap x y ys)

theorem perm_jsStableSort_aux (cmp : α → α → Int) (l acc : List α) :
    (l.foldl (fun a x => insertCmp cmp x a) acc).Perm (acc ++ l) := by
  induction l generalizing acc with
  | nil => simp
  | cons x xs ih =>
    have h1 := ih (insertCmp cmp x acc)
    have h2 : ((insertCmp cmp x acc) ++ xs).Perm (acc ++ x :: xs) := by
      refine ((perm_insertCmp cmp x acc).append_right xs).trans ?_
      simpa using List.perm_middle.symm
    exact h1.trans h2

theorem perm_jsStableSort (cmp : α → α → Int) (l : List α) :
    (jsStableSort cmp l).Perm l := by
  simpa using perm_jsStableSort_aux cmp l []

theorem mem_jsStableSort (cmp : α → α → Int) (l : List α) (a : α) :
    a ∈ jsStableSort cmp l ↔ a ∈ l :=
  (perm_jsStableSort cmp l).mem_iff

theorem map_eq_of_forall_mem {l : List γ} {f g : γ → δ}
    (h : ∀ a ∈ l, f a = g a) : l.map f = l.map g := by
  induction l with
  | nil => rfl
  | cons x xs ih =>
    simp only [List.map_cons]
    rw [h x (List.mem_cons_self x xs), ih fun a ha => h a (List.mem_cons_of_mem x ha)]

theorem jsMapInsert_inv [DecidableEq β] (key : α → β) (m : List (β × α))
    (a : α) (h1 : (m.map Prod.fst).Nodup) (h2 : ∀ p ∈ m, key p.2 = p.1) :
    ((jsMapInsert key m a).map Prod.fst).Nodup ∧
      ∀ p ∈ jsMapInsert key m a, key p.2 = p.1 := by
  unfold jsMapInsert
  by_cases hmem : m.any (fun p => p.1 = key a)
  · rw [if_pos hmem]
    have hfst : (m.map (fun p => if p.1 = key a then (p.1, a) else p)).map
        Prod.fst = m.map Prod.fst := by
      rw [List.map_map]
      exact map_eq_of_forall_mem fun p _ => by
        by_cases hp : p.1 = key a <;> simp [hp]
    refine ⟨hfst ▸ h1, ?_⟩
    intro p hp
    rcases List.mem_map.1 hp with ⟨q, hq, hqe⟩
    by_cases hqk : q.1 = key a
    · rw [if_pos hqk] at hqe
      rw [← hqe]
      exact hqk.symm
    · rw [if_neg hqk] at hqe
      exact hqe ▸ h2 q hq
  · rw [if_neg hmem]
    constructor
    · rw [List.map_append]
      refine List.Nodup.append h1 (by simp) ?_
      intro b hb hb'
      simp only [List.map_cons, List.map_nil, List.mem_singleton] at hb'
      subst hb'
      rcases List.mem_map.1 hb with ⟨q, hq, hqe⟩
      exact hmem (List.any_eq_true.2 ⟨q, hq, by simp [hqe]⟩)
    · intro p hp
      rcases List.mem_append.1 hp with hp | hp
      · exact h2 p hp
      · simp only [List.mem_singleton] at hp
        subst hp
        rfl

theorem foldl_jsMapInsert_inv [DecidableEq β] (key : α → β) (l : List α)
    (m : List (β × α)) (h1 : (m.map Prod.fst).Nodup)
    (h2 : ∀ p ∈ m, key p.2 = p.1) :
    ((l.foldl (jsMapInsert key) m).map Prod.fst).Nodup ∧
      ∀ p ∈ l.foldl (jsMapInsert key) m, key p.2 = p.1 := by
  induction l generalizing m with
  | nil => exact ⟨h1, h2⟩
  | cons x xs ih =>
    obtain ⟨h1x, h2x⟩ := jsMapInsert_inv key m x h1 h2
    exact ih (jsMapInsert key m x) h1x h2x

theorem nodup_map_key_jsMapDedup [DecidableEq β] (key : α → β)
    (l : List α) : ((jsMapDedup key l).map key).Nodup := by
  obtain ⟨h1, h2⟩ := foldl_jsMapInsert_inv key l [] (by simp) (by simp)
  have heq : (jsMapDedup key l).map key =
      (l.foldl (jsMapInsert key) []).map Prod.fst := by
    unfold jsMapDedup
    rw [List.map_map]
    exact map_eq_of_forall_mem fun p hp => h2 p hp
  rw [heq]
  exact h1

theorem keyCmp_some_some (key : α → Option Int) (a b : α) (ta tb : Int)
    (ha : key a = some ta) (hb : key b = some tb) :
    keyCmp key a b = tb - ta := by
  unfold keyCmp
  rw [ha, hb]

theorem keyCmp_none_left (key : α → Option Int) (a b : α)
    (ha : key a = none) : keyCmp key a b = 0 := by
  unfold keyCmp
  rw [ha]
  cases key b <;> rfl

theorem keyCmp_none_right (key : α → Option Int) (a b : α)
    (hb : key b = none) : keyCmp key a b = 0 := by
  unfold keyCmp
  rw [hb]

theorem consistentCmpOn_of_all_some (key : α → Option Int) (l : List α)
    (h : ∀ u ∈ l, (key u).isSome) : ConsistentCmpOn (keyCmp key) l := by
  constructor
  · intro a ha b hb
    obtain ⟨ta, hta⟩ := Option.isSome_iff_exists.1 (h a ha)
    obtain ⟨tb, htb⟩ := Option.isSome_iff_exists.1 (h b hb)
    rw [keyCmp_some_some key a b ta tb hta htb,
      keyCmp_some_some key b a tb ta htb hta]
    constructor <;> omega
  · intro a ha b hb c hc
    obtain ⟨ta, hta⟩ := Option.isSome_iff_exists.1 (h a ha)
    obtain ⟨tb, htb⟩ := Option.isSome_iff_exists.1 (h b hb)
    obtain ⟨tc, htc⟩ := Option.isSome_iff_exists.1 (h c hc)
    rw [keyCmp_some_some key a b ta tb hta htb,
      keyCmp_some_some key b c tb tc htb htc,
      keyCmp_some_some key a c ta tc hta htc]
    omega

theorem map_getD_eq_filterMap (key : α → Option Int) :
    ∀ l : List α, (∀ u ∈ l, (key u).isSome) →
      l.map (fun u => (key u).getD 0) = l.filterMap key := by
  intro l
  induction l with
  | nil => intro _; rfl
  | cons x xs ih =>
    intro h
    obtain ⟨t, ht⟩ := Option.isSome_iff_exists.1 (h x (List.mem_cons_self x xs))
    rw [List.map_cons, List.filterMap_cons_some ht, ht]
    simp only [Option.getD_some]
    rw [ih fun u hu => h u (List.mem_cons_of_mem x hu)]

theorem insertCmp_append_of_key_none (key : α → Option Int) (x : α)
    (hx : key x = none) (l : List α) :
    insertCmp (keyCmp key) x l = l ++ [x] := by
  induction l with
  | nil => rfl
  | cons y ys ih =>
    have hcmp : keyCmp key x y = 0 := by
      unfold keyCmp
      rw [hx]
      cases key y <;> rfl
    simp [insertCmp, hcmp, ih]

theorem head?_filterMap_insertCmp (key : α → Option Int) (x : α) (tx : Int)
    (hx : key x = some tx) (l : List α) :
    ((insertCmp (keyCmp key) x l).filterMap key).head? = some tx ∨
      ((insertCmp (keyCmp key) x l).filterMap key).head? =
        (l.filterMap key).head? := by
  induction l with
  | nil => left; simp [insertCmp, hx]
  | cons y ys ih =>
    by_cases hlt : keyCmp key x y < 0
    · left
      simp [insertCmp, hlt, hx]
    · rw [show insertCmp (keyCmp key) x (y :: ys)
          = y :: insertCmp (keyCmp key) x ys by simp [insertCmp, hlt]]
      cases hy : key y with
      | some ty =>
        right
        simp [List.filterMap_cons, hy]
      | none =>
        rcases ih with h | h
        · left
          simpa [List.filterMap_cons, hy] using h
        · right
          simpa [List.filterMap_cons, hy] using h

theorem chain'_filterMap_insertCmp_some (key : α → Option Int) (x : α)
    (tx : Int) (hx : key x = some tx) :
    ∀ l : List α, List.Chain' (· ≥ ·) (l.filterMap key) →
      List.Chain' (· ≥ ·) ((insertCmp (keyCmp key) x l).filterMap key) := by
  intro l
  induction l with
  | nil =>
    intro _
    simp [insertCmp, hx]
  | cons y ys ih =>
    intro h
    by_cases hlt : keyCmp key x y < 0
    · obtain ⟨ty, hy, hty⟩ : ∃ ty, key y = some ty ∧ ty < tx := by
        cases hy : key y with
        | none =>
          exfalso
          have : keyCmp key x y = 0 := by
            unfold keyCmp
            rw [hy]
          rw [this] at hlt
          exact absurd hlt (by omega)
        | some ty =>
          refine ⟨ty, rfl, ?_⟩
          rw [keyCmp_some_some key x y tx ty hx hy] at hlt
          omega
      rw [show insertCmp (keyCmp key) x (y :: ys) = x :: y :: ys by
        simp [insertCmp, hlt]]
      rw [List.filterMap_cons_some hx, List.filterMap_cons_some hy]
      rw [List.filterMap_cons_some hy] at h
      exact List.chain'_cons.2 ⟨le_of_lt hty, h⟩
    · rw [show insertCmp (keyCmp key) x (y :: ys)
          = y :: insertCmp (keyCmp key) x ys by simp [insertCmp, hlt]]
      cases hy : key y with
      | none =>
        rw [List.filterMap_cons_none hy] at h ⊢
        exact ih h
      | some ty =>
        have hge : tx ≤ ty := by
          rw [keyCmp_some_some key x y tx ty hx hy] at hlt
          omega
        rw [List.filterMap_cons_some hy] at h ⊢
        have htail := (List.chain'_cons'.1 h).2
        have hhead := (List.chain'_cons'.1 h).1
        refine List.chain'_cons'.2 ⟨?_, ih htail⟩
        intro z hz
        rcases head?_filterMap_insertCmp key x tx hx ys with hh | hh
        · rw [hh] at hz
          simp only [Option.mem_def, Option.some.injEq] at hz
          omega
        · rw [hh] at hz
          exact hhead z hz

theorem chain'_filterMap_insertCmp (key : α → Option Int) (x : α)
    (l : List α) (h : List.Chain' (· ≥ ·) (l.filterMap key)) :
    List.Chain' (· ≥ ·) ((insertCmp (keyCmp key) x l).filterMap key) := by
  cases hx : key x with
  | none =>
    rw [insertCmp_append_of_key_none key x hx]
    simpa [List.filterMap_append, hx] using h
  | some tx => exact chain'_filterMap_insertCmp_some key x tx hx l h

theorem chain'_filterMap_foldl_insertCmp (key : α → Option Int) :
    ∀ (l acc : List α), List.Chain' (· ≥ ·) (acc.filterMap key) →
      List.Chain' (· ≥ ·)
        ((l.foldl (fun a x => insertCmp (keyCmp key) x a) acc).filterMap
          key) := by
  intro l
  induction l with
  | nil => intro acc h; exact h
  | cons x xs ih =>
    intro acc h
    exact ih _ (chain'_filterMap_insertCmp key x acc h)

theorem chain'_filterMap_jsStableSort (key : α → Option Int) (l : List α) :
    List.Chain' (· ≥ ·) ((jsStableSort (keyCmp key) l).filterMap key) :=
  chain'_filterMap_foldl_insertCmp key l [] (by simp)

theorem storeClinicList_append (store cs : List ClinicData)
    (h : ((store ++ cs).map (fun c => c.name)).Nodup) :
    storeClinicList store cs = store ++ cs := by
  induction cs generalizing store with
  | nil => simp [storeClinicList]
  | cons c cs ih =>
    have hname : c.name ∉ store.map (fun x => x.name) := by
      intro hmem
      rw [List.map_append] at h
      rcases List.nodup_append.1 h with ⟨_, _, hdisj⟩
      exact hdisj hmem (by simp)
    have hno : store.any (fun e => e.name = c.name) = false := by
      rw [List.any_eq_false]
      intro e he
      simp only [decide_eq_true_eq]
      intro heq
      exact hname (List.mem_map.2 ⟨e, he, heq⟩)
    have hstep : (insertClinicIfNew store c).1 = store ++ [c] := by
      simp [insertClinicIfNew, hno]
    have h' : (((store ++ [c]) ++ cs).map (fun x => x.name)).Nodup := by
      simpa [List.append_assoc] using h
    calc storeClinicList store (c :: cs)
        = storeClinicList (store ++ [c]) cs := by
          simp [storeClinicList, hstep]
      _ = (store ++ [c]) ++ cs := ih (store ++ [c]) h'
      _ = store ++ c :: cs := by simp

theorem foldl_processStep_eq (state : String) :
    ∀ (stateData : List RawClinic) (store : List ClinicData) (n : Nat),
      stateData.foldl
        (fun acc c =>
          match validateClinicRecord state c with
          | some row => (acc.1 ++ [row], acc.2 + 1)
          | none => acc) (store, n)
      = (store ++ stateData.filterMap (validateClinicRecord state),
          n + (stateData.filterMap (validateClinicRecord state)).length) := by
  intro stateData
  induction stateData with
  | nil => intro store n; simp
  | cons c cs ih =>
    intro store n
    cases hv : validateClinicRecord state c with
    | some row =>
      simp only [List.foldl_cons, hv, List.filterMap_cons_some hv]
      rw [ih]
      refine Prod.ext ?_ ?_
      · simp
      · simp
        omega
    | none =>
      simp only [List.foldl_cons, hv, List.filterMap_cons_none hv]
      exact ih store n

theorem processClinicBatch_eq (state : String) (store : List ClinicData)
    (stateData : List RawClinic) :
    processClinicBatch state store stateData
      = (store ++ stateData.filterMap (validateClinicRecord state),
         (stateData.filterMap (validateClinicRecord state)).length) := by
  unfold processClinicBatch
  rw [foldl_processStep_eq]
  simp

theorem retryLoop_ok (op : Nat → Except ε α) (N : Nat) (es : Nat → ε)
    (v : α) (hfail : ∀ k, k < N → op k = .error (es k))
    (hsucc : op N = .ok v) :
    ∀ (r k : Nat), k ≤ N → N + 1 ≤ k + r →
      retryLoop op k r = (.ok v, N - k + 1) := by
  intro r
  induction r with
  | zero => intro k h1 h2; omega
  | succ r ih =>
    intro k h1 h2
    by_cases hk : k = N
    · subst hk
      simp [retryLoop, hsucc]
    · have hklt : k < N := by omega
      have hr : r ≠ 0 := by omega
      simp only [retryLoop, hfail k hklt]
      rw [if_neg hr]
      rw [ih (k + 1) (by omega) (by omega)]
      have harith : N - (k + 1) + 1 + 1 = N - k + 1 := by omega
      simp [harith]

theorem retryLoop_error (op : Nat → Except ε α) (N : Nat) (es : Nat → ε)
    (hfail : ∀ k, k < N → op k = .error (es k)) :
    ∀ (r k : Nat), 1 ≤ r → k + r ≤ N →
      retryLoop op k r = (.opError (es (k + r - 1)), r) := by
  intro r
  induction r with
  | zero => intro k h1 h2; omega
  | succ r ih =>
    intro k h1 h2
    have hklt : k < N := by omega
    simp only [retryLoop, hfail k hklt]
    by_cases hr : r = 0
    · subst hr
      simp
    · rw [if_neg hr]
      rw [ih (k + 1) (by omega) (by omega)]
      have harith : k + 1 + r - 1 = k + (r + 1) - 1 := by omega
      simp [harith]

theorem foldl_eachCallbackSync_pushed :
    ∀ (elems : List ScrapedElem) (s : EachState),
      (elems.foldl eachCallbackSync s).pushed = s.pushed := by
  intro elems
  induction elems with
  | nil => intro s; rfl
  | cons e es ih =>
    intro s
    rw [List.foldl_cons, ih]
    unfold eachCallbackSync
    by_cases h : e.name ≠ "" ∧ e.address ≠ "" <;> simp [h]

/-!  Claim theorems.  -/

/-- C1 counterexample: when the Planned Parenthood and KFF sources both
contribute the same `recentUpdates` entry, the merged record contains that
entry twice.  `recentUpdates` (like `officialDocuments` and
`legalResources`) is a plain concatenation with no deduplication, so the
claim that every list field of the merged record holds each entry exactly
once under its dedup key is false. -/
theorem c1_counterexample :
    ((mergeScrapedData parseFix "California" (updatesOnly [upd2024]) {} {} {}
        (updatesOnly [upd2024]) {} {}).recentUpdates).count upd2024 = 2 := by
  decide

/-- C1 amended: in the merged record only `restrictions`, `requirements` and
`sourceUrls` are deduplicated (exact-string key, first occurrence kept, in
source-priority order - they are duplicate-free sublists of the
source-priority concatenation with the same members); `recentUpdates`,
`officialDocuments` and `legalResources` are concatenated without any
deduplication; and the scraped `newsArticles` list is deduplicated by URL
inside `scrapeNewsArticles` (each URL appears at most once in its result). -/
theorem c1_merge_dedup_amended (parse : String → Option Int) (state : String)
    (ppData acluData guttmacherData stateGovData kffData nwlcData
      stateResources : ScrapedLegalData) :
    ((mergeScrapedData parse state ppData acluData guttmacherData stateGovData
        kffData nwlcData stateResources).restrictions).Nodup ∧
    ((mergeScrapedData parse state ppData acluData guttmacherData stateGovData
        kffData nwlcData stateResources).requirements).Nodup ∧
    ((mergeScrapedData parse state ppData acluData guttmacherData stateGovData
        kffData nwlcData stateResources).sourceUrls).Nodup ∧
    ((mergeScrapedData parse state ppData acluData guttmacherData stateGovData
        kffData nwlcData stateResources).restrictions).Sublist
      (orL ppData.restrictions ++ orL acluData.restrictions ++
        orL guttmacherData.restrictions ++ orL kffData.restrictions ++
        orL nwlcData.restrictions) ∧
    (∀ x, x ∈ (mergeScrapedData parse state ppData acluData guttmacherData
        stateGovData kffData nwlcData stateResources).restrictions ↔
      x ∈ orL ppData.restrictions ++ orL acluData.restrictions ++
        orL guttmacherData.restrictions ++ orL kffData.restrictions ++
        orL nwlcData.restrictions) ∧
    (mergeScrapedData parse state ppData acluData guttmacherData stateGovData
        kffData nwlcData stateResources).officialDocuments
      = orL stateGovData.officialDocuments ++ orL kffData.officialDocuments ∧
    (mergeScrapedData parse state ppData acluData guttmacherData stateGovData
        kffData nwlcData stateResources).legalResources
      = orL stateResources.legalResources ++ orL stateGovData.legalResources ++
          orL kffData.legalResources ∧
    (∀ pushed : List NewsArticle,
      ((scrapeNewsResult parse pushed).map (fun a => a.url)).Nodup) := by
  refine ⟨nodup_jsSetDedup _, nodup_jsSetDedup _, nodup_jsSetDedup _,
    sublist_jsSetDedup _, fun x => mem_jsSetDedup _ x, rfl, rfl, ?_⟩
  intro pushed
  have h1 := nodup_map_key_jsMapDedup (fun a : NewsArticle => a.url) pushed
  have hperm :=
    (perm_jsStableSort (keyCmp (fun a : NewsArticle => parse a.date))
      (jsMapDedup (fun a => a.url) pushed)).map (fun a => a.url)
  exact hperm.nodup_iff.2 h1

/-- C2 counterexample: for the Wyoming batch of nine well-formed records
plus one record missing its phone number, the attempt fails (so the whole
batch is retried) but the nine valid records have already been inserted into
the store - the failed batch IS partially persisted, contradicting the
claim that no record from a failed batch is accepted into storage. -/
theorem c2_counterexample :
    (clinicBatchAttempt "Wyoming" [] (some wyomingBatch)).2 = false ∧
      ((clinicBatchAttempt "Wyoming" [] (some wyomingBatch)).1).length = 9 := by
  decide

/-- C2 amended: a batch that fails to parse or whose parsed array is not
exactly 10 records long aborts before any insert, and a malformed batch is
retried as a whole; but the insert loop writes every valid record to the
store before the shortfall check runs, so a failed 10-record batch leaves
its valid records persisted (and the retry can insert them again). -/
theorem c2_batch_persistence_amended (state : String)
    (store : List ClinicData) (stateData : List RawClinic)
    (hlen : stateData.length = 10) :
    (clinicBatchAttempt state store (some stateData)).1
        = store ++ stateData.filterMap (validateClinicRecord state) ∧
      ((clinicBatchAttempt state store (some stateData)).2 = true ↔
        10 ≤ (stateData.filterMap (validateClinicRecord state)).length) ∧
      clinicBatchAttempt state store none = (store, false) := by
  have hred : clinicBatchAttempt state store (some stateData)
      = ((processClinicBatch state store stateData).1,
          decide (10 ≤ (processClinicBatch state store stateData).2)) := by
    show (if stateData.length = 10 then _ else _) = _
    rw [if_pos hlen]
  refine ⟨?_, ?_, rfl⟩
  · rw [hred, processClinicBatch_eq]
  · rw [hred, processClinicBatch_eq]
    simp

/-- C2 amended witness: the Wyoming scenario batch instantiates the amended
claim. -/
theorem c2_batch_persistence_amended_witness :
    (clinicBatchAttempt "Wyoming" [] (some wyomingBatch)).1
        = [] ++ wyomingBatch.filterMap (validateClinicRecord "Wyoming") :=
  (c2_batch_persistence_amended "Wyoming" [] wyomingBatch (by decide)).1

/-- C3 counterexample: in the success path the output `newsArticles` list is
rebuilt from the freshly scraped articles and the AI articles only; the
input record's own `newsArticles` entries are dropped, so the output list
fields are not all supersets of the input list fields. -/
theorem c3_counterexample :
    sampleArticle ∈ inputWithArticle.newsArticles ∧
      (generateAIEnhancedLegalInfo parseFix [] (some aiFixture)
        inputWithArticle).newsArticles = [] := by
  decide

/-- C3 amended: every list field of the enriched output except
`newsArticles` is a superset of the corresponding input list field
(`newsArticles` is replaced by scraped-plus-AI articles), and whenever the
completion call fails or its response is not parseable JSON the returned
record equals the input unchanged. -/
theorem c3_enrichment_amended (parse : String → Option Int)
    (news : List NewsArticle) (ai : Option AiGenerated)
    (scrapedData : StateLegalInfo) :
    scrapedData.restrictions ⊆
        (generateAIEnhancedLegalInfo parse news ai scrapedData).restrictions ∧
      scrapedData.requirements ⊆
        (generateAIEnhancedLegalInfo parse news ai scrapedData).requirements ∧
      scrapedData.recentUpdates ⊆
        (generateAIEnhancedLegalInfo parse news ai scrapedData).recentUpdates ∧
      scrapedData.sourceUrls ⊆
        (generateAIEnhancedLegalInfo parse news ai scrapedData).sourceUrls ∧
      scrapedData.officialDocuments ⊆
        (generateAIEnhancedLegalInfo parse news ai
          scrapedData).officialDocuments ∧
      scrapedData.legalResources ⊆
        (generateAIEnhancedLegalInfo parse news ai
          scrapedData).legalResources ∧
      scrapedData.emergencyContacts ⊆
        (generateAIEnhancedLegalInfo parse news ai
          scrapedData).emergencyContacts ∧
      (ai = none →
        generateAIEnhancedLegalInfo parse news ai scrapedData
          = scrapedData) := by
  cases ai with
  | none =>
    refine ⟨?_, ?_, ?_, ?_, ?_, ?_, ?_, fun _ => rfl⟩ <;>
      exact fun x hx => hx
  | some g =>
    refine ⟨?_, ?_, ?_, ?_, ?_, ?_, ?_, by simp⟩
    · exact fun x hx => List.mem_append_right _ hx
    · exact fun x hx => List.mem_append_right _ hx
    · exact fun x hx =>
        (mem_jsStableSort _ _ x).2 (List.mem_append_right _ hx)
    · exact fun x hx => hx
    · exact fun x hx => List.mem_append_right _ hx
    · exact fun x hx => hx
    · exact fun x hx => List.mem_append_right _ hx

/-- C3 amended witness: a failing completion call leaves the fixture record
unchanged. -/
theorem c3_enrichment_amended_witness :
    generateAIEnhancedLegalInfo parseFix [] none inputWithArticle
      = inputWithArticle :=
  (c3_enrichment_amended parseFix [] none
    inputWithArticle).2.2.2.2.2.2.2 rfl

/-- C4 counterexample: the AI restriction "AI" (not a source entry) appears
BEFORE the source entry "SRC" in the output, and `additionalNotes` takes
the AI value although the input already had a non-empty note - both halves
of the claim fail. -/
theorem c4_counterexample :
    (generateAIEnhancedLegalInfo parseFix [] (some aiFixture)
        inputWithArticle).restrictions = ["AI", "SRC"] ∧
      inputWithArticle.restrictions = ["SRC"] ∧
      decide ("AI" ∈ inputWithArticle.restrictions) = false ∧
      inputWithArticle.additionalNotes = some "from source" ∧
      (generateAIEnhancedLegalInfo parseFix [] (some aiFixture)
        inputWithArticle).additionalNotes = some "from AI" := by
  decide

/-- C4 amended: in the success path AI-returned entries are PREPENDED
before the source entries for `restrictions`, `requirements`,
`emergencyContacts` and `officialDocuments`; `recentUpdates` is the
date-sorted AI-then-source concatenation, `newsArticles` the date-sorted
freshly-scraped-then-AI concatenation; and `additionalNotes` takes the AI
value whenever it is a non-empty string (JS truthiness), falling back to
the input value otherwise. -/
theorem c4_ai_order_amended (parse : String → Option Int)
    (news : List NewsArticle) (g : AiGenerated)
    (scrapedData : StateLegalInfo) :
    (generateAIEnhancedLegalInfo parse news (some g) scrapedData).restrictions
        = orL g.restrictions ++ scrapedData.restrictions ∧
      (generateAIEnhancedLegalInfo parse news (some g)
          scrapedData).requirements
        = orL g.requirements ++ scrapedData.requirements ∧
      (generateAIEnhancedLegalInfo parse news (some g)
          scrapedData).emergencyContacts
        = orL g.emergencyContacts ++ scrapedData.emergencyContacts ∧
      (generateAIEnhancedLegalInfo parse news (some g)
          scrapedData).officialDocuments
        = orL g.officialDocuments ++ scrapedData.officialDocuments ∧
      (generateAIEnhancedLegalInfo parse news (some g)
          scrapedData).recentUpdates
        = jsStableSort (keyCmp (fun u => parse u.date))
            (orL g.recentUpdates ++ scrapedData.recentUpdates) ∧
      (generateAIEnhancedLegalInfo parse news (some g)
          scrapedData).newsArticles
        = jsStableSort (keyCmp (fun a => parse a.date))
            (news ++ orL g.newsArticles) ∧
      (g.additionalNotes = none ∨ g.additionalNotes = some "" →
        (generateAIEnhancedLegalInfo parse news (some g)
            scrapedData).additionalNotes = scrapedData.additionalNotes) ∧
      (∀ s, g.additionalNotes = some s → s ≠ "" →
        (generateAIEnhancedLegalInfo parse news (some g)
            scrapedData).additionalNotes = some s) := by
  refine ⟨rfl, rfl, rfl, rfl, rfl, rfl, ?_, ?_⟩
  · rintro (h | h) <;>
      simp [generateAIEnhancedLegalInfo, jsOrStr, h]
  · intro s hs hne
    simp [generateAIEnhancedLegalInfo, jsOrStr, hs, hne]

/-- C4 amended witness: the fixture response with a non-empty AI note
overrides the non-empty source note. -/
theorem c4_ai_order_amended_witness :
    (generateAIEnhancedLegalInfo parseFix [] (some aiFixture)
        inputWithArticle).additionalNotes = some "from AI" :=
  (c4_ai_order_amended parseFix [] aiFixture
    inputWithArticle).2.2.2.2.2.2.2 "from AI" rfl (by decide)

/-- C5 counterexample: when every source contributes nothing, no news is
scraped and the AI call fails, the record the legal-info crawler persists
for California is NOT the canned `fallbackLegalInfo["California"]` record -
`startLegalInfoCrawler` never consults `fallbackLegalInfo`. -/
theorem c5_counterexample :
    decide (legalCrawlerRecord parseFix "California" {} {} {} {} {} {} {}
        [] none = fallbackLegalInfoCalifornia) = false ∧
      (legalCrawlerRecord parseFix "California" {} {} {} {} {} {} {}
        [] none).restrictions = [] ∧
      fallbackLegalInfoCalifornia.restrictions.length = 2 := by
  refine ⟨?_, rfl, rfl⟩
  decide

/-- C5 amended: the fallback substitution holds for the clinic crawler
(when `fetchClinicsFromAPI` yields nothing and a fallback entry exists, the
data persisted into an empty store is exactly the canned fallback list),
but the legal-information crawler never uses `fallbackLegalInfo`. -/
theorem c5_fallback_amended (state : String) (fb : List ClinicData)
    (hfb : fallbackClinicsFor state = some fb)
    (hnd : (fb.map (fun c => c.name)).Nodup) :
    runClinicTask state [] [] = fb := by
  unfold runClinicTask clinicTaskData
  rw [hfb]
  simp only [List.length_nil, if_pos rfl]
  have h := storeClinicList_append [] fb (by simpa using hnd)
  simpa using h

/-- C5 amended witness: with nothing fetched for California, the stored
clinics are exactly the three canned California fallback clinics. -/
theorem c5_fallback_amended_witness :
    runClinicTask "California" [] []
      = ((fallbackClinicsFor "California").getD []) :=
  c5_fallback_amended "California" ((fallbackClinicsFor "California").getD [])
    (by decide) (by decide)

/-- C6 counterexample: for source updates dated 2020, unparseable, 2024 (in
that order) the crawler comparator is inconsistent - the unparseable entry
ties (NaN coerced to 0) with both neighbours while 2020 and 2024 compare
strictly - so ECMAScript leaves the sorted order implementation-defined and
the UNCHANGED input order is an admissible result of the merge sort call
(it is in fact what V8 returns: TimSort run detection compares adjacent
elements only and sees two ties).  That admissible output violates the
claim: under the claimed unparseable-counts-as-today reading (today taken
as epoch-ms 1760140800000, later than both parseable dates) the mapped date
list starts 2020-then-today, which is already increasing, and the parsed
subsequence 2020, 2024 is increasing as well; also no date string is ever
replaced by today - the output is a permutation of the input entries. -/
theorem c6_counterexample :
    mergedRecentUpdatesSpec parseFix
        (updatesOnly [upd2020, updBadDate, upd2024]) {} {}
        [upd2020, updBadDate, upd2024] ∧
      List.map (fun u => (parseFix u.date).getD 1760140800000)
        [upd2020, updBadDate, upd2024]
        = [1577836800000, 1760140800000, 1704067200000] ∧
      decide ((1577836800000 : Int) ≥ 1760140800000) = false ∧
      decide ((1577836800000 : Int) ≥ 1704067200000) = false := by
  refine ⟨⟨by decide, fun hcon => absurd hcon (by decide)⟩, by decide,
    by decide, by decide⟩

/-- C6 amended: no entry is dropped by either sort call - every admissible
output of the `recentUpdates` sort (and of the `newsArticles` sort in the
enrichment step) is a permutation of the concatenated inputs; when every
entry date parses the comparator is a consistent comparison function on the
elements, so every admissible output is the unique stable order, sorted
non-increasing by parsed date; and an entry with an unparseable date makes
the comparator return a tie (NaN coerced to 0) against every entry in both
argument orders - it is never treated as today or as most recent, and with
such an entry present the comparator is inconsistent, leaving the order
implementation-defined rather than guaranteed sorted. -/
theorem c6_date_sort_amended (parse : String → Option Int)
    (ppData kffData nwlcData : ScrapedLegalData)
    (scrapedNews aiNews : List NewsArticle)
    (updatesOut : List LegalUpdate) (newsOut : List NewsArticle) :
    (mergedRecentUpdatesSpec parse ppData kffData nwlcData updatesOut →
      updatesOut.Perm
        (orL ppData.recentUpdates ++ orL kffData.recentUpdates ++
          orL nwlcData.recentUpdates)) ∧
      (mergedNewsArticlesSpec parse scrapedNews aiNews newsOut →
        newsOut.Perm (scrapedNews ++ aiNews)) ∧
      ((∀ u ∈ orL ppData.recentUpdates ++ orL kffData.recentUpdates ++
          orL nwlcData.recentUpdates, ((parse u.date)).isSome) →
        mergedRecentUpdatesSpec parse ppData kffData nwlcData updatesOut →
        List.Chain' (· ≥ ·)
          (updatesOut.map (fun u => (parse u.date).getD 0))) ∧
      (∀ a b : LegalUpdate, parse a.date = none →
        keyCmp (fun u => parse u.date) a b = 0 ∧
          keyCmp (fun u => parse u.date) b a = 0) := by
  refine ⟨fun h => h.1, fun h => h.1, ?_, ?_⟩
  · intro hall hspec
    have hcon :=
      consistentCmpOn_of_all_some (fun u : LegalUpdate => parse u.date) _ hall
    rw [hspec.2 hcon]
    have hperm := perm_jsStableSort (keyCmp (fun u => parse u.date))
      (orL ppData.recentUpdates ++ orL kffData.recentUpdates ++
        orL nwlcData.recentUpdates)
    have hall2 : ∀ u ∈ jsStableSort (keyCmp (fun u => parse u.date))
        (orL ppData.recentUpdates ++ orL kffData.recentUpdates ++
          orL nwlcData.recentUpdates), ((parse u.date)).isSome :=
      fun u hu => hall u (hperm.mem_iff.1 hu)
    rw [map_getD_eq_filterMap _ _ hall2]
    exact chain'_filterMap_jsStableSort _ _
  · intro a b ha
    exact ⟨keyCmp_none_left _ a b ha, keyCmp_none_right _ b a ha⟩

/-- C6 amended witness: two parseable updates instantiate the sorted-case
conclusion - the admissible output of the sort is the non-increasing order
2024 then 2020. -/
theorem c6_date_sort_amended_witness :
    List.Chain' (· ≥ ·)
      (List.map (fun u => (parseFix u.date).getD 0) [upd2024, upd2020]) :=
  (c6_date_sort_amended parseFix (updatesOnly [upd2020, upd2024]) {} {}
      [] [] [upd2024, upd2020] []).2.2.1 (by decide)
    ⟨by decide, fun _ => by decide⟩

/-- C7: an operation failing on its first N invocations and succeeding on
invocation N+1 makes `retryOperation` return the success value after
exactly N+1 invocations when the attempt budget is at least N+1, and
rethrow the error of the final attempt unchanged (after exactly that many
invocations) when the budget is between 1 and N. -/
theorem c7_retry_operation (op : Nat → Except ε α) (N : Nat) (es : Nat → ε)
    (v : α) (hfail : ∀ k, k < N → op k = .error (es k))
    (hsucc : op N = .ok v) :
    (∀ M, N + 1 ≤ M → retryOperation op M = (.ok v, N + 1)) ∧
      (∀ M, 1 ≤ M → M ≤ N →
        retryOperation op M = (.opError (es (M - 1)), M)) := by
  constructor
  · intro M hM
    have h := retryLoop_ok op N es v hfail hsucc M 0 (by omega) (by omega)
    simpa [retryOperation] using h
  · intro M h1 h2
    have h := retryLoop_error op N es hfail M 0 h1 (by omega)
    simpa [retryOperation] using h

/-- C7 witness: the fixture operation fails twice then returns 42; three
attempts succeed with three invocations, two attempts rethrow the second
error. -/
theorem c7_retry_operation_witness :
    retryOperation opFix 3 = (.ok 42, 3) ∧
      retryOperation opFix 2 = (.opError 1, 2) := by
  have h := c7_retry_operation opFix 2 (fun k => k) 42
    (by intro k hk; simp [opFix, hk]) (by simp [opFix])
  exact ⟨h.1 3 (by omega), by simpa using h.2 2 (by omega) (by omega)⟩

/-- C8: upserting legal info for a state already present keeps the row
count (update in place), replaces the list fields and refreshes
`lastVerified` on every row of that state; storing a clinic whose name
matches an existing row leaves the store unchanged and takes the
already-exists logging branch, while an unmatched clinic is appended. -/
theorem c8_upsert (store : List LegalRow) (mergedData : StateLegalInfo)
    (now : Nat)
    (hex : store.any (fun r => r.state = mergedData.state) = true) :
    (upsertLegalInfo store mergedData now).length = store.length ∧
      (∀ r ∈ upsertLegalInfo store mergedData now,
        r.state = mergedData.state →
          r.restrictions = mergedData.restrictions ∧
          r.requirements = mergedData.requirements ∧
          r.recentUpdates = mergedData.recentUpdates ∧
          r.sourceUrls = mergedData.sourceUrls ∧
          r.officialDocuments = mergedData.officialDocuments ∧
          r.legalResources = mergedData.legalResources ∧
          r.newsArticles = mergedData.newsArticles ∧
          r.lastVerified = now) ∧
      (∀ (cstore : List ClinicData) (c : ClinicData),
        (cstore.any (fun e => e.name = c.name) = true →
          insertClinicIfNew cstore c = (cstore, true)) ∧
        (cstore.any (fun e => e.name = c.name) = false →
          insertClinicIfNew cstore c = (cstore ++ [c], false))) := by
  unfold upsertLegalInfo
  rw [if_pos hex]
  refine ⟨List.length_map _ _, ?_, ?_⟩
  · intro r hr hstate
    rcases List.mem_map.1 hr with ⟨orig, _, heq⟩
    by_cases ho : orig.state = mergedData.state
    · rw [if_pos ho] at heq
      rw [← heq]
      exact ⟨rfl, rfl, rfl, rfl, rfl, rfl, rfl, rfl⟩
    · rw [if_neg ho] at heq
      exact absurd (heq ▸ hstate) ho
  · intro cstore c
    constructor
    · intro h
      simp [insertClinicIfNew, h]
    · intro h
      simp [insertClinicIfNew, h]

/-- C8 witness: a store holding one California row updated with the fixture
merged record keeps exactly one row. -/
theorem c8_upsert_witness :
    (upsertLegalInfo [insertLegalRow fallbackLegalInfoCalifornia 5]
        inputWithArticle 9).length = 1 :=
  (c8_upsert [insertLegalRow fallbackLegalInfoCalifornia 5]
    inputWithArticle 9 (by decide)).1

/-- C10: the clinics list `scrapeClinicWebsite` resolves with is always
empty - every push sits behind the awaited geocoding call inside the async
callback that the synchronous cheerio `.each` discards, so no push can run
before the function returns - and therefore the scraped-website sources
contribute nothing to `fetchClinicsFromAPI`. -/
theorem c10_scrape_website_empty :
    (∀ elems : List ScrapedElem, scrapeClinicWebsiteResolved elems = []) ∧
      ∀ (state : String) (ppClinics : List ClinicData)
        (scrapedSites : List (List ScrapedElem)),
        fetchClinicsFromAPI state ppClinics scrapedSites
          = fetchClinicsFromAPI state ppClinics [] := by
  have hres : ∀ elems : List ScrapedElem,
      scrapeClinicWebsiteResolved elems = [] := by
    intro elems
    unfold scrapeClinicWebsiteResolved scrapeClinicWebsiteRun
    rw [foldl_eachCallbackSync_pushed]
  have hflat : ∀ sites : List (List ScrapedElem),
      (sites.map (fun _ => ([] : List ClinicData))).flatten = [] := by
    intro sites
    induction sites with
    | nil => rfl
    | cons s ss ih =>
      simp only [List.map_cons, List.flatten_cons, List.nil_append]
      exact ih
  refine ⟨hres, ?_⟩
  intro state pp sites
  unfold fetchClinicsFromAPI
  have hmap : sites.map scrapeClinicWebsiteResolved
      = sites.map (fun _ => ([] : List ClinicData)) :=
    map_eq_of_forall_mem fun a _ => hres a
  rw [hmap, hflat]
  simp

end HERa
